import Mathlib

/-!
Verification development for the `mcp-agents` subprocess-orchestration server.

The definitions below are a shallow embedding of the JavaScript source
(`src/unnamed/part_000`): pure functions are translated directly, the
stateful process runner becomes an explicit event-step machine, and the
retry loop of the tool-call handler becomes a structurally recursive
function instrumented with the list of launched attempts.  External
runtime facilities (the JavaScript `JSON.parse`, wall-clock time, the
outcome of each spawned subprocess) are passed in as explicit parameters,
so every definition is executable on concrete inputs.
-/

/-- Model of a JavaScript/JSON value, as produced by `JSON.parse` and as
carried in tool-call argument objects.  Numbers are modelled as integers
(the only numeric behaviour the verified code depends on is
`Number.isInteger`, and non-integral numbers take the same branch as
non-numbers). -/
inductive Json where
  | null
  | bool (b : Bool)
  | num (n : Int)
  | str (s : String)
  | arr (xs : List Json)
  | obj (fields : List (String × Json))

mutual

/-- JavaScript `String(value)` as used by `toStringArg` after the `null`
and string cases have been peeled off: booleans and numbers print their
literal form, arrays join their elements with commas (with `null`
elements printing as the empty string, per `Array.prototype.toString`),
and plain objects print as `[object Object]`. -/
def jsToString : Json → String
  | .null => ""
  | .bool b => if b then "true" else "false"
  | .num n => toString n
  | .str s => s
  | .arr xs => jsArrJoin xs
  | .obj _ => "[object Object]"

/-- Comma-join of array elements for `jsToString`. -/
def jsArrJoin : List Json → String
  | [] => ""
  | [x] => jsToString x
  | x :: y :: xs => jsToString x ++ "," ++ jsArrJoin (y :: xs)

end

/-- Source `toStringArg(value)`: a string is returned as-is, `null` or
`undefined` (modelled as `none`) becomes `""`, anything else is
`String(value)`. -/
def toStringArg : Option Json → String
  | some (.str s) => s
  | none => ""
  | some .null => ""
  | some v => jsToString v

/-- JavaScript property access `j.k` on a parsed JSON value: defined only
on objects, `undefined` (`none`) otherwise. -/
def jsGet (j : Json) (k : String) : Option Json :=
  match j with
  | .obj fields => fields.lookup k
  | _ => none

/-- The source guard `parsed && typeof parsed === "object"`: true for
objects and arrays (`typeof` of both is `"object"`), false for `null`
(falsy) and primitives. -/
def isJsObject : Json → Bool
  | .obj _ => true
  | .arr _ => true
  | _ => false

/-- Strict equality of a possibly-absent property against a string
literal, as in `parsed.type === "result"`. -/
def jsOptIsStr : Option Json → String → Bool
  | some (.str t), s => t == s
  | _, _ => false

/-- Strict equality of a possibly-absent property against `true`, as in
`parsed.is_error === true`. -/
def jsOptIsTrue : Option Json → Bool
  | some (.bool true) => true
  | _ => false

/-- Strict equality of a present value against `true`, as in
`opts.sandbox === true`. -/
def jsIsTrue : Json → Bool
  | .bool true => true
  | _ => false

/-- JavaScript whitespace as relevant to `.trim()` on the ASCII outputs
handled here. -/
def isJsWhitespace (c : Char) : Bool :=
  c == ' ' || c == '\t' || c == '\n' || c == '\r'

/-- JavaScript `String.prototype.trim()`: drop whitespace from both ends.
Modelled directly on the character list so that it is kernel-computable. -/
def jsTrim (s : String) : String :=
  String.mk (((s.data.dropWhile isJsWhitespace).reverse.dropWhile isJsWhitespace).reverse)

/-- JavaScript `String.prototype.trimEnd()`: drop whitespace from the
right end only. -/
def jsTrimEnd (s : String) : String :=
  String.mk ((s.data.reverse.dropWhile isJsWhitespace).reverse)

/-- Result of the Output Normalizer: `{ text, isError }`. -/
structure NormalizedOutput where
  text : String
  isError : Bool
deriving DecidableEq

/-- Source `normalizeToolOutput(provider, output)`.  The JavaScript
`JSON.parse` is passed in as the explicit oracle `parse` (returning
`none` when parsing throws); everything else is translated directly:
non-`claude` providers pass raw output through, `claude` output is
trimmed, empty text short-circuits, a parsed object tagged
`type: "result"` yields the stringified `result` field with
`is_error === true` as the error flag, and every other case falls back
to the raw output. -/
def normalizeToolOutput (parse : String → Option Json) (provider output : String) :
    NormalizedOutput :=
  if provider ≠ "claude" then ⟨output, false⟩
  else
    if (jsTrim output).isEmpty then ⟨"", false⟩
    else
      match parse (jsTrim output) with
      | some parsed =>
        if isJsObject parsed && jsOptIsStr (jsGet parsed "type") "result" then
          ⟨toStringArg (jsGet parsed "result"), jsOptIsTrue (jsGet parsed "is_error")⟩
        else ⟨output, false⟩
      | none => ⟨output, false⟩

/-- Source constant `DEFAULT_TIMEOUT_MS = 300_000`. -/
def DEFAULT_TIMEOUT_MS : Int := 300000

/-- Source constant `MAX_BUFFER_BYTES = 10 * 1024 * 1024`. -/
def MAX_BUFFER_BYTES : Nat := 10 * 1024 * 1024

/-- Source constant `CLAUDE_EMPTY_OUTPUT_MAX_ATTEMPTS = 2`. -/
def CLAUDE_EMPTY_OUTPUT_MAX_ATTEMPTS : Nat := 2

/-- Source line
`const timeoutMs = Number.isInteger(timeoutMsRaw) ? timeoutMsRaw : effectiveTimeout`:
the request-supplied `timeout_ms` is used whenever it is an integer
(`Json.num` models exactly the integral JavaScript numbers; non-integral
numbers, like every other non-integer value, take the fallback branch),
otherwise the startup default is used. -/
def resolveTimeoutMs (timeoutMsRaw : Option Json) (effectiveTimeout : Int) : Int :=
  match timeoutMsRaw with
  | some (.num n) => n
  | _ => effectiveTimeout

/-- Source line `extraOpts[key] = rawArgs[key] ?? backend.extraProperties[key].default`:
the `??` operator substitutes the configured default for `undefined`
(modelled `none`) and `null`. -/
def resolveExtraOpt (reqVal : Option Json) (dflt : Json) : Json :=
  match reqVal with
  | none => dflt
  | some .null => dflt
  | some v => v

/-- Source `CLI_BACKENDS.gemini.buildArgs(prompt, opts)`: push `-s` when
`opts.sandbox === true`, then `-p` and the prompt. -/
def geminiBuildArgs (prompt : String) (sandbox : Json) : List String :=
  (if jsIsTrue sandbox then ["-s"] else []) ++ ["-p", prompt]

/-- Source `CLI_BACKENDS.claude.buildArgs()` (the prompt is delivered on
stdin for this backend, so it does not appear in the argument list). -/
def claudeBuildArgs : List String :=
  ["--no-session-persistence", "-p", "--output-format", "json"]

/-- Source `maxAttempts = providerName === "claude" ? CLAUDE_EMPTY_OUTPUT_MAX_ATTEMPTS : 1`. -/
def maxAttemptsFor (providerName : String) : Nat :=
  if providerName = "claude" then CLAUDE_EMPTY_OUTPUT_MAX_ATTEMPTS else 1

/-- Source `emptyMsg`: the error text returned when every attempt
produced blank output. -/
def emptyOutputMsg (providerName command : String) : String :=
  if providerName = "claude" then
    "claude returned empty output twice (exit 0); treated as failure"
  else command ++ " returned empty output (exit 0); treated as failure"

/-- Source `timeoutMsg`: the error text returned when the budget was
exhausted with no attempt having run. -/
def timeoutMsg (command : String) : String :=
  command ++ " failed: timeout budget exhausted before retry"

/-- Successful result of one `runCli` call, as consumed by the retry
loop. -/
structure RunOk where
  output : String
  stdoutBytes : Nat
  stderrBytes : Nat
  durationMs : Nat
deriving DecidableEq

/-- Outcome of awaiting one `runCli` call: the promise either resolves
with a `RunOk` or rejects with an error message (which the handler's
`catch` turns into an error response). -/
inductive RunOutcome where
  | ok (r : RunOk)
  | err (msg : String)
deriving DecidableEq

/-- A tool response `{ content: [{type: "text", text}], isError }`
(absent `isError` modelled as `false`). -/
structure ToolResponse where
  text : String
  isError : Bool
deriving DecidableEq

/-- Ambient data of one invocation of the `CallToolRequestSchema`
handler: the `JSON.parse` oracle, the provider and command names, the
resolved timeout budget, the outcome each attempt would produce
(`run k` is what `await runCli` yields on attempt `k`), and the
wall-clock reading `Date.now() - startedAt` observed at the start of
attempt `k` (`elapsedAt k`). -/
structure InvokeEnv where
  parse : String → Option Json
  providerName : String
  command : String
  timeoutMs : Int
  run : Nat → RunOutcome
  elapsedAt : Nat → Nat

/-- Result of running the retry loop: `response` is `some r` when the
loop returned from inside its body, otherwise the loop fell through
carrying `lastResult`/`lastNormalized`; `launched` instruments the loop
with the list of attempts actually started, each paired with the
remaining-budget allowance passed to `runCli`. -/
structure LoopDone where
  response : Option ToolResponse
  lastResult : Option RunOk
  lastNormalized : NormalizedOutput
  launched : List (Nat × Int)

/-- The retry loop of the `CallToolRequestSchema` handler, lines 502-543
of the source: on each attempt compute the remaining budget and break if
it is non-positive; otherwise run the command (a rejected promise
becomes an error response via the surrounding `catch`), normalize the
output, return an error response on an explicit envelope error, return
success on non-blank text, and otherwise record the blank result and
loop.  Recursion is on the number of attempts still permitted. -/
def attemptLoop (env : InvokeEnv) :
    Nat → Nat → Option RunOk → NormalizedOutput → List (Nat × Int) → LoopDone
  | _, 0, lastR, lastN, acc => ⟨none, lastR, lastN, acc⟩
  | attempt, rem + 1, lastR, lastN, acc =>
    if env.timeoutMs - (env.elapsedAt attempt : Int) ≤ 0 then ⟨none, lastR, lastN, acc⟩
    else
      match env.run attempt with
      | .err msg =>
        ⟨some ⟨msg, true⟩, lastR, lastN,
          acc ++ [(attempt, env.timeoutMs - (env.elapsedAt attempt : Int))]⟩
      | .ok r =>
        if (normalizeToolOutput env.parse env.providerName r.output).isError then
          ⟨some ⟨(if (jsTrim (normalizeToolOutput env.parse env.providerName r.output).text).isEmpty
                  then env.command ++ " returned is_error=true"
                  else jsTrim (normalizeToolOutput env.parse env.providerName r.output).text),
                true⟩,
          some r, normalizeToolOutput env.parse env.providerName r.output,
          acc ++ [(attempt, env.timeoutMs - (env.elapsedAt attempt : Int))]⟩
        else if (jsTrim (normalizeToolOutput env.parse env.providerName r.output).text).isEmpty then
          attemptLoop env (attempt + 1) rem (some r)
            (normalizeToolOutput env.parse env.providerName r.output)
            (acc ++ [(attempt, env.timeoutMs - (env.elapsedAt attempt : Int))])
        else
          ⟨some ⟨(normalizeToolOutput env.parse env.providerName r.output).text, false⟩,
          some r, normalizeToolOutput env.parse env.providerName r.output,
          acc ++ [(attempt, env.timeoutMs - (env.elapsedAt attempt : Int))]⟩

/-- The retry loop entered with the source's initial state: attempt 1,
`maxAttempts` permitted attempts, `lastResult` unset and
`lastNormalized = { text: "", isError: false }`. -/
def invokeTrace (env : InvokeEnv) : LoopDone :=
  attemptLoop env 1 (maxAttemptsFor env.providerName) none ⟨"", false⟩ []

/-- The handler's overall try-block result (source lines 495-571): a
response produced inside the loop is returned as-is; otherwise the
empty-output error is returned when some attempt ran and its normalized
text is blank (`if (lastResult && !lastNormalized.text.trim())`), and the
timeout-budget-exhausted error otherwise. -/
def invokeWithRetries (env : InvokeEnv) : ToolResponse :=
  match (invokeTrace env).response with
  | some r => r
  | none =>
    if (invokeTrace env).lastResult.isSome
        && (jsTrim (invokeTrace env).lastNormalized.text).isEmpty then
      ⟨emptyOutputMsg env.providerName env.command, true⟩
    else
      ⟨timeoutMsg env.command, true⟩

/-- Attempt `k` resolves cleanly and normalizes to non-error text that is
blank after trimming — the situation the retry policy exists for. -/
def blankOkAttempt (env : InvokeEnv) (k : Nat) : Prop :=
  ∃ r, env.run k = .ok r ∧
    (normalizeToolOutput env.parse env.providerName r.output).isError = false ∧
    (jsTrim (normalizeToolOutput env.parse env.providerName r.output).text).isEmpty = true

/-- Asynchronous events delivered to one `runCli` invocation: a chunk on
either output stream, expiry of the deadline timer, the child's `close`
event, or a spawn failure (`error` event). -/
inductive RunEvent where
  | stdoutData (chunk : String)
  | stderrData (chunk : String)
  | timerFire
  | closed (code : Int) (signal : Option String)
  | spawnError (msg : String)

/-- Closure state of one `runCli` invocation: the accumulated stream
texts and byte counts, whether the promise has settled and with what,
and whether `killGroup` (a `SIGKILL` to the child's process group) has
been issued.  Chunk sizes are modelled as character counts. -/
structure RunState where
  stdout : String
  stderr : String
  stdoutLen : Nat
  stderrLen : Nat
  settled : Bool
  result : Option (Except String RunOk)
  groupKilled : Bool

/-- The source's `done(null)` resolution: a no-op once settled, otherwise
settle with `output = (stdout || stderr || "").trimEnd()` and the byte
counts.  (`durationMs` is wall-clock time, irrelevant to the properties
proved here, and is modelled as 0.) -/
def doneOk (s : RunState) : RunState :=
  if s.settled then s
  else
    { s with
      settled := true,
      result := some (.ok
        { output := jsTrimEnd (if s.stdout.isEmpty then s.stderr else s.stdout),
          stdoutBytes := s.stdoutLen, stderrBytes := s.stderrLen, durationMs := 0 }) }

/-- The source's `done(err)` rejection: a no-op once settled, otherwise
settle with the error message. -/
def doneErr (s : RunState) (msg : String) : RunState :=
  if s.settled then s else { s with settled := true, result := some (.error msg) }

/-- The source's failure detail string for a non-clean exit:
`` `${command} failed: ${reason}` `` joined with `` `stderr:\n${stderr}` ``
when stderr is non-empty. -/
def failMsg (command reason stderr : String) : String :=
  if stderr.isEmpty then command ++ " failed: " ++ reason
  else command ++ " failed: " ++ reason ++ "\n" ++ "stderr:\n" ++ stderr

/-- One event-handler step of `runCli` (source lines 245-303): a stream
chunk bumps that stream's byte count and, past `MAX_BUFFER_BYTES`, kills
the process group and rejects naming that stream; the deadline timer
kills the process group (the subsequent `close` from the `SIGKILL`
produces the rejection); `close` resolves cleanly on status 0 with no
signal and rejects otherwise; a spawn error rejects with the
failed-to-start message. -/
def stepRun (command : String) (s : RunState) (e : RunEvent) : RunState :=
  match e with
  | .stdoutData c =>
    if s.stdoutLen + c.length > MAX_BUFFER_BYTES then
      doneErr { s with stdoutLen := s.stdoutLen + c.length, groupKilled := true }
        (command ++ " stdout maxBuffer exceeded")
    else
      { s with stdoutLen := s.stdoutLen + c.length, stdout := s.stdout ++ c }
  | .stderrData c =>
    if s.stderrLen + c.length > MAX_BUFFER_BYTES then
      doneErr { s with stderrLen := s.stderrLen + c.length, groupKilled := true }
        (command ++ " stderr maxBuffer exceeded")
    else
      { s with stderrLen := s.stderrLen + c.length, stderr := s.stderr ++ c }
  | .timerFire => { s with groupKilled := true }
  | .closed code signal =>
    match signal with
    | some sig => doneErr s (failMsg command ("killed by " ++ sig) s.stderr)
    | none =>
      if code ≠ 0 then doneErr s (failMsg command ("exit code " ++ toString code) s.stderr)
      else doneOk s
  | .spawnError m => doneErr s ("Failed to start " ++ command ++ ": " ++ m)

/-- State of a fresh `runCli` invocation. -/
def initRunState : RunState :=
  { stdout := "", stderr := "", stdoutLen := 0, stderrLen := 0,
    settled := false, result := none, groupKilled := false }

/-- A whole `runCli` invocation as the fold of its event sequence. -/
def runCliModel (command : String) (events : List RunEvent) : RunState :=
  events.foldl (stepRun command) initRunState

/-- Events emitted while the child's streams are still open: data chunks
and the deadline timer. -/
def isStreamEvent : RunEvent → Bool
  | .stdoutData _ => true
  | .stderrData _ => true
  | .timerFire => true
  | _ => false

/-- Well-formed event sequences, per Node's stream contract: `close` (and
the `error` spawn-failure event) is emitted only after both output
streams have ended, so no data chunk follows it. -/
def wfEvents (events : List RunEvent) : Bool :=
  (events.dropWhile isStreamEvent).all (fun e => !isStreamEvent e)

/-- One OS-level process: its id, its process-group id, and whether it is
still runnable.  Modelled for the group-kill property: `spawn` with
`detached: true` makes the child the leader of a fresh group (its
`pgid` equals its pid) and descendants inherit that group. -/
structure OsProc where
  pid : Int
  pgid : Int
  alive : Bool
deriving DecidableEq

/-- POSIX delivery of `SIGKILL` to a process group: every process whose
`pgid` equals the target group stops being runnable (`SIGKILL` can be
neither caught nor ignored); processes outside the group are untouched. -/
def killProcessGroup (pgid : Int) (procs : List OsProc) : List OsProc :=
  procs.map (fun p => if p.pgid = pgid then { p with alive := false } else p)

/-- Source `killGroup = () => { process.kill(-child.pid, "SIGKILL") }`:
the negative-pid form targets the process group whose id is the child's
pid. -/
def killGroup (childPid : Int) (procs : List OsProc) : List OsProc :=
  killProcessGroup childPid procs

/-- Source `SIGNAL_CODES = { SIGHUP: 1, SIGINT: 2, SIGTERM: 15 }`. -/
def SIGNAL_CODES (sig : String) : Option Int :=
  if sig = "SIGHUP" then some 1
  else if sig = "SIGINT" then some 2
  else if sig = "SIGTERM" then some 15
  else none

/-- The pass-through `child.on("exit", ...)` handler (source lines
346-354): a signal death sets the host exit code to
`128 + (SIGNAL_CODES[signal] ?? 0)`, a natural exit mirrors the child's
code (`code ?? 1`). -/
def passthroughExitCode (code : Option Int) (signal : Option String) : Int :=
  match signal with
  | some sig => 128 + (SIGNAL_CODES sig).getD 0
  | none => code.getD 1

/-- Modelled from the spec: the "conventional number" of each common
terminating Unix signal, as referenced by the sentence deriving
`128 + signal` exit statuses.  This table is the spec-side reference the
code's `SIGNAL_CODES` is compared against; it is not part of the source. -/
def conventionalSignalNumber (sig : String) : Option Int :=
  if sig = "SIGHUP" then some 1
  else if sig = "SIGINT" then some 2
  else if sig = "SIGQUIT" then some 3
  else if sig = "SIGABRT" then some 6
  else if sig = "SIGKILL" then some 9
  else if sig = "SIGSEGV" then some 11
  else if sig = "SIGPIPE" then some 13
  else if sig = "SIGALRM" then some 14
  else if sig = "SIGTERM" then some 15
  else none

/-- Concrete invocation: the `claude` backend whose every attempt exits
cleanly with empty output, with ample budget. -/
def envBlankClaude : InvokeEnv :=
  { parse := fun _ => none, providerName := "claude", command := "claude",
    timeoutMs := 1000, run := fun _ => .ok ⟨"", 0, 0, 0⟩, elapsedAt := fun _ => 0 }

/-- Concrete invocation: the `gemini` backend answering non-blank text at
once. -/
def envGeminiOk : InvokeEnv :=
  { parse := fun _ => none, providerName := "gemini", command := "gemini",
    timeoutMs := 1000, run := fun _ => .ok ⟨"hello", 5, 0, 10⟩, elapsedAt := fun _ => 0 }

/-- Concrete invocation: a request-supplied budget of 0 ms, exhausted
before the first attempt. -/
def envZeroBudget : InvokeEnv :=
  { parse := fun _ => none, providerName := "claude", command := "claude",
    timeoutMs := 0, run := fun _ => .ok ⟨"", 0, 0, 0⟩, elapsedAt := fun _ => 0 }

/-- Concrete invocation: the first `claude` attempt exits cleanly with
empty output but consumes the whole 100 ms budget, so the retry cannot
start. -/
def envSlowBlank : InvokeEnv :=
  { parse := fun _ => none, providerName := "claude", command := "claude",
    timeoutMs := 100, run := fun _ => .ok ⟨"", 0, 0, 150⟩,
    elapsedAt := fun k => if k = 1 then 0 else 150 }

/-- A structured envelope of discriminator `type: "result"` with no
`result` field and no `is_error` flag. -/
def emptyResultEnvelope : Json :=
  Json.obj [("type", Json.str "result")]

/-- Concrete invocation: every `claude` attempt exits cleanly printing an
envelope that parses to `emptyResultEnvelope`. -/
def envEnvelopeBlank : InvokeEnv :=
  { parse := fun s => if s = "envelope" then some emptyResultEnvelope else none,
    providerName := "claude", command := "claude",
    timeoutMs := 1000, run := fun _ => .ok ⟨"envelope", 8, 0, 5⟩, elapsedAt := fun _ => 0 }

/-- A single chunk one byte larger than the buffer ceiling. -/
def bigChunk : String :=
  String.mk (List.replicate (MAX_BUFFER_BYTES + 1) 'a')

/-- Concrete `runCli` event sequence: one oversized stdout chunk, then
the close caused by the group kill. -/
def overflowEvents : List RunEvent :=
  [RunEvent.stdoutData bigChunk, RunEvent.closed 0 (some "SIGKILL")]

/-- Concrete process table: the spawned child (group leader, pid 100), a
grandchild it spawned inside the same group, and an unrelated process. -/
def procsW : List OsProc :=
  [⟨100, 100, true⟩, ⟨101, 100, true⟩, ⟨50, 50, true⟩]

/-- Neither stream has exceeded the ceiling yet and the `runCli` promise
is still pending. -/
def underLimits (s : RunState) : Prop :=
  s.stdoutLen ≤ MAX_BUFFER_BYTES ∧ s.stderrLen ≤ MAX_BUFFER_BYTES ∧
  s.settled = false ∧ s.result = none

/-- The `runCli` promise has settled on a buffer overflow: the process
group was killed and the rejection names a stream whose accumulated size
does exceed the ceiling. -/
def overflowSettled (command : String) (s : RunState) : Prop :=
  s.settled = true ∧ s.groupKilled = true ∧
  ((s.result = some (.error (command ++ " stdout maxBuffer exceeded")) ∧
      s.stdoutLen > MAX_BUFFER_BYTES) ∨
   (s.result = some (.error (command ++ " stderr maxBuffer exceeded")) ∧
      s.stderrLen > MAX_BUFFER_BYTES))

theorem attemptLoop_launched_spec (env : InvokeEnv) (rem : Nat) :
    ∀ (attempt : Nat) (lastR : Option RunOk) (lastN : NormalizedOutput)
      (acc : List (Nat × Int)),
      ∃ produced,
        (attemptLoop env attempt rem lastR lastN acc).launched = acc ++ produced ∧
        (∀ ka ∈ produced, attempt ≤ ka.1 ∧
          ka.2 = env.timeoutMs - (env.elapsedAt ka.1 : Int) ∧ 0 < ka.2) ∧
        produced.Pairwise (fun x y => x.1 < y.1) ∧
        produced.length ≤ rem := by
  induction rem with
  | zero =>
    intro attempt lastR lastN acc
    exact ⟨[], by simp [attemptLoop], by simp, by simp, by simp⟩
  | succ n ih =>
    intro attempt lastR lastN acc
    by_cases hb : env.timeoutMs - (env.elapsedAt attempt : Int) ≤ 0
    · exact ⟨[], by simp [attemptLoop, hb], by simp, by simp, by simp⟩
    · have hpos : 0 < env.timeoutMs - (env.elapsedAt attempt : Int) := by omega
      cases hrun : env.run attempt with
      | err msg =>
        refine ⟨[(attempt, env.timeoutMs - (env.elapsedAt attempt : Int))],
          by simp [attemptLoop, hb, hrun], ?_, by simp, by simp⟩
        intro ka hka
        simp only [List.mem_singleton] at hka
        subst hka
        exact ⟨le_refl _, rfl, hpos⟩
      | ok r =>
        by_cases hie : (normalizeToolOutput env.parse env.providerName r.output).isError = true
        · refine ⟨[(attempt, env.timeoutMs - (env.elapsedAt attempt : Int))],
            by simp [attemptLoop, hb, hrun, hie], ?_, by simp, by simp⟩
          intro ka hka
          simp only [List.mem_singleton] at hka
          subst hka
          exact ⟨le_refl _, rfl, hpos⟩
        · by_cases hblank :
            ((jsTrim (normalizeToolOutput env.parse env.providerName r.output).text).isEmpty) = true
          · obtain ⟨produced, hl, hp, hpw, hlen⟩ :=
              ih (attempt + 1) (some r)
                (normalizeToolOutput env.parse env.providerName r.output)
                (acc ++ [(attempt, env.timeoutMs - (env.elapsedAt attempt : Int))])
            refine ⟨(attempt, env.timeoutMs - (env.elapsedAt attempt : Int)) :: produced,
              ?_, ?_, ?_, ?_⟩
            · have hstep : attemptLoop env attempt (n + 1) lastR lastN acc
                  = attemptLoop env (attempt + 1) n (some r)
                      (normalizeToolOutput env.parse env.providerName r.output)
                      (acc ++ [(attempt, env.timeoutMs - (env.elapsedAt attempt : Int))]) := by
                simp [attemptLoop, hb, hrun, hie, hblank]
              rw [hstep, hl, List.append_assoc]
              simp
            · intro ka hka
              rcases List.mem_cons.mp hka with h | h
              · subst h; exact ⟨le_refl _, rfl, hpos⟩
              · obtain ⟨h1, h2, h3⟩ := hp ka h
                exact ⟨by omega, h2, h3⟩
            · refine List.pairwise_cons.mpr ⟨?_, hpw⟩
              intro y hy
              have := (hp y hy).1
              simp only []
              omega
            · simp only [List.length_cons]
              omega
          · refine ⟨[(attempt, env.timeoutMs - (env.elapsedAt attempt : Int))],
              by simp [attemptLoop, hb, hrun, hie, hblank], ?_, by simp, by simp⟩
            intro ka hka
            simp only [List.mem_singleton] at hka
            subst hka
            exact ⟨le_refl _, rfl, hpos⟩

theorem attemptLoop_no_launch (env : InvokeEnv) (rem : Nat) :
    ∀ (attempt : Nat) (lastR : Option RunOk) (lastN : NormalizedOutput)
      (acc : List (Nat × Int)),
      (attemptLoop env attempt rem lastR lastN acc).launched = acc →
      attemptLoop env attempt rem lastR lastN acc = ⟨none, lastR, lastN, acc⟩ := by
  intro attempt lastR lastN acc hl
  cases rem with
  | zero => simp [attemptLoop]
  | succ n =>
    by_cases hb : env.timeoutMs - (env.elapsedAt attempt : Int) ≤ 0
    · simp [attemptLoop, hb]
    · exfalso
      cases hrun : env.run attempt with
      | err msg =>
        rw [show attemptLoop env attempt (n + 1) lastR lastN acc
            = ⟨some ⟨msg, true⟩, lastR, lastN,
                acc ++ [(attempt, env.timeoutMs - (env.elapsedAt attempt : Int))]⟩ from by
          simp [attemptLoop, hb, hrun]] at hl
        simp at hl
      | ok r =>
        by_cases hie : (normalizeToolOutput env.parse env.providerName r.output).isError = true
        · rw [show attemptLoop env attempt (n + 1) lastR lastN acc
              = ⟨some ⟨(if (jsTrim (normalizeToolOutput env.parse env.providerName r.output).text).isEmpty
                        then env.command ++ " returned is_error=true"
                        else jsTrim (normalizeToolOutput env.parse env.providerName r.output).text),
                      true⟩,
                  some r, normalizeToolOutput env.parse env.providerName r.output,
                  acc ++ [(attempt, env.timeoutMs - (env.elapsedAt attempt : Int))]⟩ from by
            simp [attemptLoop, hb, hrun, hie]] at hl
          simp at hl
        · by_cases hblank :
            ((jsTrim (normalizeToolOutput env.parse env.providerName r.output).text).isEmpty) = true
          · rw [show attemptLoop env attempt (n + 1) lastR lastN acc
                = attemptLoop env (attempt + 1) n (some r)
                    (normalizeToolOutput env.parse env.providerName r.output)
                    (acc ++ [(attempt, env.timeoutMs - (env.elapsedAt attempt : Int))]) from by
              simp [attemptLoop, hb, hrun, hie, hblank]] at hl
            obtain ⟨produced, hl2, -, -, -⟩ :=
              attemptLoop_launched_spec env n (attempt + 1) (some r)
                (normalizeToolOutput env.parse env.providerName r.output)
                (acc ++ [(attempt, env.timeoutMs - (env.elapsedAt attempt : Int))])
            rw [hl2] at hl
            have := congrArg List.length hl
            simp [List.length_append, Nat.add_assoc] at this
          · rw [show attemptLoop env attempt (n + 1) lastR lastN acc
                = ⟨some ⟨(normalizeToolOutput env.parse env.providerName r.output).text, false⟩,
                    some r, normalizeToolOutput env.parse env.providerName r.output,
                    acc ++ [(attempt, env.timeoutMs - (env.elapsedAt attempt : Int))]⟩ from by
              simp [attemptLoop, hb, hrun, hie, hblank]] at hl
            simp at hl

theorem attemptLoop_fell_blank (env : InvokeEnv) (rem : Nat) :
    ∀ (attempt : Nat) (lastR : Option RunOk) (lastN : NormalizedOutput)
      (acc : List (Nat × Int)),
      (attemptLoop env attempt rem lastR lastN acc).response = none →
      (attemptLoop env attempt rem lastR lastN acc).launched ≠ acc →
      (attemptLoop env attempt rem lastR lastN acc).lastResult.isSome = true ∧
      ((jsTrim (attemptLoop env attempt rem lastR lastN acc).lastNormalized.text).isEmpty) = true := by
  induction rem with
  | zero =>
    intro attempt lastR lastN acc hresp hl
    exact absurd (by simp [attemptLoop]) hl
  | succ n ih =>
    intro attempt lastR lastN acc hresp hl
    by_cases hb : env.timeoutMs - (env.elapsedAt attempt : Int) ≤ 0
    · exact absurd (by simp [attemptLoop, hb]) hl
    · cases hrun : env.run attempt with
      | err msg =>
        rw [show attemptLoop env attempt (n + 1) lastR lastN acc
            = ⟨some ⟨msg, true⟩, lastR, lastN,
                acc ++ [(attempt, env.timeoutMs - (env.elapsedAt attempt : Int))]⟩ from by
          simp [attemptLoop, hb, hrun]] at hresp
        simp at hresp
      | ok r =>
        by_cases hie : (normalizeToolOutput env.parse env.providerName r.output).isError = true
        · rw [show attemptLoop env attempt (n + 1) lastR lastN acc
              = ⟨some ⟨(if (jsTrim (normalizeToolOutput env.parse env.providerName r.output).text).isEmpty
                        then env.command ++ " returned is_error=true"
                        else jsTrim (normalizeToolOutput env.parse env.providerName r.output).text),
                      true⟩,
                  some r, normalizeToolOutput env.parse env.providerName r.output,
                  acc ++ [(attempt, env.timeoutMs - (env.elapsedAt attempt : Int))]⟩ from by
            simp [attemptLoop, hb, hrun, hie]] at hresp
          simp at hresp
        · by_cases hblank :
            ((jsTrim (normalizeToolOutput env.parse env.providerName r.output).text).isEmpty) = true
          · have hstep : attemptLoop env attempt (n + 1) lastR lastN acc
                = attemptLoop env (attempt + 1) n (some r)
                    (normalizeToolOutput env.parse env.providerName r.output)
                    (acc ++ [(attempt, env.timeoutMs - (env.elapsedAt attempt : Int))]) := by
              simp [attemptLoop, hb, hrun, hie, hblank]
            rw [hstep] at hresp hl ⊢
            by_cases hl2 : (attemptLoop env (attempt + 1) n (some r)
                (normalizeToolOutput env.parse env.providerName r.output)
                (acc ++ [(attempt, env.timeoutMs - (env.elapsedAt attempt : Int))])).launched
              = acc ++ [(attempt, env.timeoutMs - (env.elapsedAt attempt : Int))]
            · rw [attemptLoop_no_launch env n _ _ _ _ hl2]
              exact ⟨rfl, hblank⟩
            · exact ih (attempt + 1) (some r) _ _ hresp hl2
          · rw [show attemptLoop env attempt (n + 1) lastR lastN acc
                = ⟨some ⟨(normalizeToolOutput env.parse env.providerName r.output).text, false⟩,
                    some r, normalizeToolOutput env.parse env.providerName r.output,
                    acc ++ [(attempt, env.timeoutMs - (env.elapsedAt attempt : Int))]⟩ from by
              simp [attemptLoop, hb, hrun, hie, hblank]] at hresp
            simp at hresp

theorem attemptLoop_all_blank (env : InvokeEnv) (rem : Nat) :
    ∀ (attempt : Nat) (lastR : Option RunOk) (lastN : NormalizedOutput)
      (acc : List (Nat × Int)),
      (∀ k, attempt ≤ k → k < attempt + rem →
        blankOkAttempt env k ∧ 0 < env.timeoutMs - (env.elapsedAt k : Int)) →
      (attemptLoop env attempt rem lastR lastN acc).response = none ∧
      (attemptLoop env attempt rem lastR lastN acc).launched.length = acc.length + rem ∧
      (0 < rem →
        (attemptLoop env attempt rem lastR lastN acc).lastResult.isSome = true ∧
        ((jsTrim (attemptLoop env attempt rem lastR lastN acc).lastNormalized.text).isEmpty) = true) := by
  induction rem with
  | zero =>
    intro attempt lastR lastN acc _
    exact ⟨by simp [attemptLoop], by simp [attemptLoop], by omega⟩
  | succ n ih =>
    intro attempt lastR lastN acc H
    obtain ⟨⟨r, hrun, hie, hblank⟩, hbudget⟩ := H attempt (le_refl _) (by omega)
    have hb : ¬ (env.timeoutMs - (env.elapsedAt attempt : Int) ≤ 0) := by omega
    have hie' : (normalizeToolOutput env.parse env.providerName r.output).isError = true ↔ False := by
      simp [hie]
    have hstep : attemptLoop env attempt (n + 1) lastR lastN acc
        = attemptLoop env (attempt + 1) n (some r)
            (normalizeToolOutput env.parse env.providerName r.output)
            (acc ++ [(attempt, env.timeoutMs - (env.elapsedAt attempt : Int))]) := by
      simp [attemptLoop, hb, hrun, hie, hblank]
    rw [hstep]
    cases n with
    | zero =>
      refine ⟨by simp [attemptLoop], by simp [attemptLoop], fun _ => ?_⟩
      exact ⟨by simp [attemptLoop], by simp [attemptLoop, hblank]⟩
    | succ m =>
      have H' : ∀ k, attempt + 1 ≤ k → k < (attempt + 1) + (m + 1) →
          blankOkAttempt env k ∧ 0 < env.timeoutMs - (env.elapsedAt k : Int) := by
        intro k h1 h2
        exact H k (by omega) (by omega)
      obtain ⟨h1, h2, h3⟩ := ih (attempt + 1) (some r)
        (normalizeToolOutput env.parse env.providerName r.output)
        (acc ++ [(attempt, env.timeoutMs - (env.elapsedAt attempt : Int))]) H'
      refine ⟨h1, ?_, fun _ => h3 (by omega)⟩
      rw [h2]
      simp [List.length_append]
      omega

theorem normalize_claude_envelope (parse : String → Option Json) (output : String) (j : Json)
    (hne : ((jsTrim output).isEmpty) = false)
    (hparse : parse (jsTrim output) = some j)
    (henv : (isJsObject j && jsOptIsStr (jsGet j "type") "result") = true) :
    normalizeToolOutput parse "claude" output
      = ⟨toStringArg (jsGet j "result"), jsOptIsTrue (jsGet j "is_error")⟩ := by
  simp [normalizeToolOutput, hne, hparse, henv]

/-- Claim C3: `normalizeToolOutput` passes every non-`claude` backend's
output through as `{text: rawOutput, isError: false}` unconditionally;
for `claude` it trims the output, maps blank trimmed text to
`{text: "", isError: false}`, maps trimmed text that parses to an object
with discriminator `type: "result"` to the stringified `result` field
with `isError` exactly the `is_error === true` flag, and falls back to
`{text: rawOutput, isError: false}` on any parse failure or shape
mismatch; consequently `isError` is `true` only when a parsed envelope
explicitly marks failure. -/
theorem normalizeToolOutput_cases (parse : String → Option Json) (provider output : String) :
    (provider ≠ "claude" → normalizeToolOutput parse provider output = ⟨output, false⟩) ∧
    (((jsTrim output).isEmpty) = true → normalizeToolOutput parse "claude" output = ⟨"", false⟩) ∧
    (∀ j, ((jsTrim output).isEmpty) = false → parse (jsTrim output) = some j →
      (isJsObject j && jsOptIsStr (jsGet j "type") "result") = true →
      normalizeToolOutput parse "claude" output
        = ⟨toStringArg (jsGet j "result"), jsOptIsTrue (jsGet j "is_error")⟩) ∧
    (((jsTrim output).isEmpty) = false → parse (jsTrim output) = none →
      normalizeToolOutput parse "claude" output = ⟨output, false⟩) ∧
    (∀ j, ((jsTrim output).isEmpty) = false → parse (jsTrim output) = some j →
      (isJsObject j && jsOptIsStr (jsGet j "type") "result") = false →
      normalizeToolOutput parse "claude" output = ⟨output, false⟩) ∧
    ((normalizeToolOutput parse provider output).isError = true →
      provider = "claude" ∧ ∃ j, parse (jsTrim output) = some j ∧
        (isJsObject j && jsOptIsStr (jsGet j "type") "result") = true ∧
        jsOptIsTrue (jsGet j "is_error") = true) := by
  refine ⟨?_, ?_, ?_, ?_, ?_, ?_⟩
  · intro h
    simp [normalizeToolOutput, h]
  · intro h
    simp [normalizeToolOutput, h]
  · intro j h1 h2 h3
    exact normalize_claude_envelope parse output j h1 h2 h3
  · intro h1 h2
    simp [normalizeToolOutput, h1, h2]
  · intro j h1 h2 h3
    simp [normalizeToolOutput, h1, h2, h3]
  · intro hie
    by_cases hp : provider = "claude"
    · subst hp
      refine ⟨rfl, ?_⟩
      by_cases he : ((jsTrim output).isEmpty) = true
      · simp [normalizeToolOutput, he] at hie
      · cases hj : parse (jsTrim output) with
        | none => simp [normalizeToolOutput, he, hj] at hie
        | some j =>
          by_cases henv : (isJsObject j && jsOptIsStr (jsGet j "type") "result") = true
          · refine ⟨j, rfl, henv, ?_⟩
            simpa [normalizeToolOutput, he, hj, henv] using hie
          · simp [normalizeToolOutput, he, hj, henv] at hie
    · simp [normalizeToolOutput, hp] at hie

theorem normalizeToolOutput_cases_witness :
    ("gemini" ≠ "claude" ∧
      normalizeToolOutput (fun _ => none) "gemini" "raw text" = ⟨"raw text", false⟩) ∧
    ((jsTrim " ").isEmpty = true ∧
      normalizeToolOutput (fun _ => none) "claude" " " = ⟨"", false⟩) ∧
    normalizeToolOutput (fun _ => some (Json.obj [("type", Json.str "result"),
        ("result", Json.str "answer"), ("is_error", Json.bool false)])) "claude" "blob"
      = ⟨"answer", false⟩ ∧
    normalizeToolOutput (fun _ => none) "claude" "not json" = ⟨"not json", false⟩ ∧
    normalizeToolOutput (fun _ => some (Json.num 7)) "claude" "7" = ⟨"7", false⟩ := by
  refine ⟨⟨by decide, (normalizeToolOutput_cases (fun _ => none) "gemini" "raw text").1
      (by decide)⟩,
    ⟨by decide, (normalizeToolOutput_cases (fun _ => none) "claude" " ").2.1 (by decide)⟩,
    ?_, ?_, ?_⟩
  · have h := (normalizeToolOutput_cases (fun _ => some (Json.obj [("type", Json.str "result"),
        ("result", Json.str "answer"), ("is_error", Json.bool false)])) "claude" "blob").2.2.1
      (Json.obj [("type", Json.str "result"), ("result", Json.str "answer"),
        ("is_error", Json.bool false)]) (by decide) rfl (by decide)
    simpa using h
  · exact (normalizeToolOutput_cases (fun _ => none) "claude" "not json").2.2.2.1
      (by decide) rfl
  · exact (normalizeToolOutput_cases (fun _ => some (Json.num 7)) "claude" "7").2.2.2.2.1
      (Json.num 7) (by decide) rfl (by decide)

/-- Claim C8: for the `gemini` backend, when the effective sandbox value
(request value with the configured default applied) is `true` the built
argument list is `["-s", "-p", prompt]` — `-s` before `-p` before the
prompt — and when it is `false` or the option is absent (so the
configured default applies) the built list is `["-p", prompt]`, with no
`-s` flag added. -/
theorem gemini_sandbox_flag_args (prompt : String) (req : Option Json) (startupSandbox : Bool) :
    (jsIsTrue (resolveExtraOpt req (Json.bool startupSandbox)) = true →
      geminiBuildArgs prompt (resolveExtraOpt req (Json.bool startupSandbox))
        = ["-s", "-p", prompt]) ∧
    (jsIsTrue (resolveExtraOpt req (Json.bool startupSandbox)) = false →
      geminiBuildArgs prompt (resolveExtraOpt req (Json.bool startupSandbox))
        = ["-p", prompt]) ∧
    (req = some (Json.bool true) →
      geminiBuildArgs prompt (resolveExtraOpt req (Json.bool startupSandbox))
        = ["-s", "-p", prompt]) ∧
    (req = some (Json.bool false) →
      geminiBuildArgs prompt (resolveExtraOpt req (Json.bool startupSandbox))
        = ["-p", prompt]) ∧
    (req = none →
      resolveExtraOpt req (Json.bool startupSandbox) = Json.bool startupSandbox) := by
  refine ⟨?_, ?_, ?_, ?_, ?_⟩
  · intro h
    simp [geminiBuildArgs, h]
  · intro h
    simp [geminiBuildArgs, h]
  · intro h
    subst h
    simp [geminiBuildArgs, resolveExtraOpt, jsIsTrue]
  · intro h
    subst h
    simp [geminiBuildArgs, resolveExtraOpt, jsIsTrue]
  · intro h
    subst h
    rfl

theorem gemini_sandbox_flag_args_witness :
    geminiBuildArgs "list files" (resolveExtraOpt (some (Json.bool true)) (Json.bool false))
      = ["-s", "-p", "list files"] ∧
    geminiBuildArgs "list files" (resolveExtraOpt (some (Json.bool false)) (Json.bool false))
      = ["-p", "list files"] ∧
    geminiBuildArgs "list files" (resolveExtraOpt none (Json.bool false))
      = ["-p", "list files"] := by
  refine ⟨(gemini_sandbox_flag_args "list files" (some (Json.bool true)) false).2.2.1 rfl,
    (gemini_sandbox_flag_args "list files" (some (Json.bool false)) false).2.2.2.1 rfl,
    (gemini_sandbox_flag_args "list files" none false).2.1 (by decide)⟩

/-- Claim C4 counterexample: a request-supplied `timeout_ms` of `-1` is a
negative integer, and the handler uses it as the effective budget instead
of replacing it with the startup default, contradicting the claim that a
negative integer is replaced by the default. -/
theorem timeout_negative_integer_used_cex :
    resolveTimeoutMs (some (Json.num (-1))) DEFAULT_TIMEOUT_MS = -1 ∧
    resolveTimeoutMs (some (Json.num (-1))) DEFAULT_TIMEOUT_MS ≠ DEFAULT_TIMEOUT_MS := by
  exact ⟨rfl, by decide⟩

/-- Claim C4 (amended): the effective timeout budget equals the
request-supplied `timeout_ms` whenever that value is an integer — any
integer, negative ones included, which are then used as-is and exhaust
the budget before the first attempt — and equals the process-wide
default for every non-integer value (absent, `null`, boolean, string,
array, object). -/
theorem resolve_timeout_any_integer (dflt : Int) :
    (∀ n : Int, resolveTimeoutMs (some (Json.num n)) dflt = n) ∧
    resolveTimeoutMs none dflt = dflt ∧
    resolveTimeoutMs (some Json.null) dflt = dflt ∧
    (∀ b, resolveTimeoutMs (some (Json.bool b)) dflt = dflt) ∧
    (∀ s, resolveTimeoutMs (some (Json.str s)) dflt = dflt) ∧
    (∀ xs, resolveTimeoutMs (some (Json.arr xs)) dflt = dflt) ∧
    (∀ fs, resolveTimeoutMs (some (Json.obj fs)) dflt = dflt) ∧
    (∀ env : InvokeEnv, env.timeoutMs ≤ 0 → (invokeTrace env).launched = [] ∧
      invokeWithRetries env = ⟨timeoutMsg env.command, true⟩) := by
  refine ⟨fun n => rfl, rfl, rfl, fun b => rfl, fun s => rfl, fun xs => rfl, fun fs => rfl, ?_⟩
  intro env henv
  have hb : env.timeoutMs - (env.elapsedAt 1 : Int) ≤ 0 := by
    have : (0 : Int) ≤ (env.elapsedAt 1 : Int) := Int.ofNat_nonneg _
    omega
  have htrace : invokeTrace env = ⟨none, none, ⟨"", false⟩, []⟩ := by
    unfold invokeTrace
    cases hm : maxAttemptsFor env.providerName with
    | zero => simp [attemptLoop]
    | succ m => simp [attemptLoop, hb]
  refine ⟨by rw [htrace], ?_⟩
  unfold invokeWithRetries
  rw [htrace]
  rfl

theorem resolve_timeout_any_integer_witness :
    resolveTimeoutMs (some (Json.num (-5))) DEFAULT_TIMEOUT_MS = -5 ∧
    resolveTimeoutMs (some (Json.str "100")) DEFAULT_TIMEOUT_MS = DEFAULT_TIMEOUT_MS ∧
    envZeroBudget.timeoutMs ≤ 0 ∧
    (invokeTrace envZeroBudget).launched = [] ∧
    invokeWithRetries envZeroBudget = ⟨timeoutMsg envZeroBudget.command, true⟩ := by
  have h := (resolve_timeout_any_integer DEFAULT_TIMEOUT_MS).2.2.2.2.2.2.2
    envZeroBudget (by decide)
  exact ⟨(resolve_timeout_any_integer DEFAULT_TIMEOUT_MS).1 (-5),
    (resolve_timeout_any_integer DEFAULT_TIMEOUT_MS).2.2.2.2.1 "100",
    by decide, h.1, h.2⟩

/-- Claim C9 counterexample: `SIGKILL` has conventional signal number 9,
yet when the pass-through child dies to `SIGKILL` the host exit status is
`128 + (SIGNAL_CODES["SIGKILL"] ?? 0) = 128`, not `128 + 9 = 137` — so
the `128 + signal` derivation does not hold for every terminating
signal, only for the three tabulated ones. -/
theorem passthrough_unlisted_signal_cex :
    passthroughExitCode none (some "SIGKILL") = 128 ∧
    conventionalSignalNumber "SIGKILL" = some 9 ∧
    passthroughExitCode none (some "SIGKILL") ≠ 128 + 9 := by
  exact ⟨by decide, by decide, by decide⟩

/-- Claim C9 (amended): in pass-through mode the host mirrors the child's
natural exit code verbatim (`null` mapping to 1), and when the child
dies to a signal the host exits with `128 + n` where `n` is the signal's
conventional number for the three tabulated signals
(`SIGTERM`/`SIGINT`/`SIGHUP`, giving 143/130/129) but `0` for every
signal outside the table, so such signals all yield exit status 128. -/
theorem passthrough_exit_mirroring :
    (∀ c : Int, passthroughExitCode (some c) none = c) ∧
    passthroughExitCode none none = 1 ∧
    (∀ code, passthroughExitCode code (some "SIGTERM") = 143 ∧
      passthroughExitCode code (some "SIGINT") = 130 ∧
      passthroughExitCode code (some "SIGHUP") = 129) ∧
    (∀ code sig, SIGNAL_CODES sig = none → passthroughExitCode code (some sig) = 128) ∧
    (∀ code sig n, SIGNAL_CODES sig = some n → passthroughExitCode code (some sig) = 128 + n) := by
  refine ⟨fun c => rfl, rfl, fun code => ⟨rfl, rfl, rfl⟩, ?_, ?_⟩
  · intro code sig h
    simp [passthroughExitCode, h]
  · intro code sig n h
    simp [passthroughExitCode, h]

theorem passthrough_exit_mirroring_witness :
    passthroughExitCode (some 3) none = 3 ∧
    passthroughExitCode none (some "SIGTERM") = 143 ∧
    SIGNAL_CODES "SIGSEGV" = none ∧
    passthroughExitCode none (some "SIGSEGV") = 128 ∧
    SIGNAL_CODES "SIGINT" = some 2 ∧
    passthroughExitCode none (some "SIGINT") = 128 + 2 := by
  exact ⟨passthrough_exit_mirroring.1 3,
    (passthrough_exit_mirroring.2.2.1 none).1,
    by decide,
    passthrough_exit_mirroring.2.2.2.1 none "SIGSEGV" (by decide),
    by decide,
    passthrough_exit_mirroring.2.2.2.2 none "SIGINT" 2 (by decide)⟩

/-- Claim C2: when the per-call deadline timer fires, the runner records
the group kill (the timer handler is exactly `killGroup`), and the
`SIGKILL` delivered to the process group whose id is the child's pid —
the group created by `spawn` with `detached: true` — leaves no process
of that group runnable, descendants of the child included, while
removing no process from the table (nothing is leaked or orphaned into
an unkillable state; processes outside the group are untouched). -/
theorem timeout_group_kill_no_survivors (command : String) (s : RunState)
    (childPid : Int) (procs : List OsProc) :
    (stepRun command s RunEvent.timerFire).groupKilled = true ∧
    (∀ p, p ∈ killGroup childPid procs → p.pgid = childPid → p.alive = false) ∧
    (∀ p, p ∈ killGroup childPid procs → p.pgid ≠ childPid →
      p ∈ procs) ∧
    (killGroup childPid procs).map (fun p => (p.pid, p.pgid))
      = procs.map (fun p => (p.pid, p.pgid)) := by
  refine ⟨by simp [stepRun], ?_, ?_, ?_⟩
  · intro p hp hpg
    simp only [killGroup, killProcessGroup, List.mem_map] at hp
    obtain ⟨q, hq, hfq⟩ := hp
    by_cases hqg : q.pgid = childPid
    · rw [← hfq]
      simp [hqg]
    · rw [← hfq] at hpg
      simp [hqg] at hpg
  · intro p hp hpg
    simp only [killGroup, killProcessGroup, List.mem_map] at hp
    obtain ⟨q, hq, hfq⟩ := hp
    by_cases hqg : q.pgid = childPid
    · rw [← hfq] at hpg
      simp [hqg] at hpg
    · rw [← hfq]
      simpa [hqg] using hq
  · induction procs with
    | nil => rfl
    | cons q qs ih =>
      by_cases hq : q.pgid = childPid <;>
        simp only [killGroup, killProcessGroup, List.map_cons] at ih ⊢ <;>
        simp [hq, ih]

theorem timeout_group_kill_witness :
    (⟨101, 100, false⟩ : OsProc) ∈ killGroup 100 procsW ∧
    ((⟨101, 100, false⟩ : OsProc).pgid = 100 ∧ (⟨101, 100, false⟩ : OsProc).alive = false) ∧
    (stepRun "claude" initRunState RunEvent.timerFire).groupKilled = true := by
  have h := timeout_group_kill_no_survivors "claude" initRunState 100 procsW
  exact ⟨by decide, ⟨rfl, h.2.1 ⟨101, 100, false⟩ (by decide) rfl⟩, h.1⟩

/-- Claim C1: for the `claude` backend, when every attempt exits cleanly
with output that normalizes to non-error text blank after trimming, and
the budget allows both attempts, the handler launches exactly two
attempts — not one, not three — and returns the single empty-output
error response; for every other (non-pass-through) backend the attempt
ceiling is one, so at most one attempt is ever launched. -/
theorem claude_retry_two_attempts_then_empty_error (env : InvokeEnv)
    (hclaude : env.providerName = "claude")
    (H : ∀ k, 1 ≤ k → k < 3 →
      blankOkAttempt env k ∧ 0 < env.timeoutMs - (env.elapsedAt k : Int)) :
    (invokeTrace env).launched.length = 2 ∧
    invokeWithRetries env
      = ⟨"claude returned empty output twice (exit 0); treated as failure", true⟩ ∧
    (∀ env2 : InvokeEnv, env2.providerName ≠ "claude" →
      maxAttemptsFor env2.providerName = 1 ∧ (invokeTrace env2).launched.length ≤ 1) := by
  have hmax : maxAttemptsFor env.providerName = 2 := by
    simp [maxAttemptsFor, hclaude, CLAUDE_EMPTY_OUTPUT_MAX_ATTEMPTS]
  have htr : invokeTrace env = attemptLoop env 1 2 none ⟨"", false⟩ [] := by
    unfold invokeTrace
    rw [hmax]
  obtain ⟨h1, h2, h3⟩ := attemptLoop_all_blank env 2 1 none ⟨"", false⟩ []
    (fun k hk1 hk2 => H k hk1 (by omega))
  obtain ⟨hsome, hblank⟩ := h3 (by omega)
  refine ⟨by rw [htr]; simpa using h2, ?_, ?_⟩
  · unfold invokeWithRetries
    rw [htr, h1, hsome, hblank]
    simp [emptyOutputMsg, hclaude]
  · intro env2 hne
    have hm : maxAttemptsFor env2.providerName = 1 := by
      simp [maxAttemptsFor, hne]
    have htr2 : invokeTrace env2 = attemptLoop env2 1 1 none ⟨"", false⟩ [] := by
      unfold invokeTrace
      rw [hm]
    obtain ⟨produced, hl, -, -, hlen⟩ :=
      attemptLoop_launched_spec env2 1 1 none ⟨"", false⟩ []
    refine ⟨hm, ?_⟩
    rw [htr2, hl]
    simpa using hlen

theorem claude_retry_two_attempts_witness :
    (invokeTrace envBlankClaude).launched.length = 2 ∧
    invokeWithRetries envBlankClaude
      = ⟨"claude returned empty output twice (exit 0); treated as failure", true⟩ ∧
    maxAttemptsFor envGeminiOk.providerName = 1 ∧
    (invokeTrace envGeminiOk).launched.length ≤ 1 := by
  have h := claude_retry_two_attempts_then_empty_error envBlankClaude rfl
    (fun k _ _ => ⟨⟨⟨"", 0, 0, 0⟩, rfl, rfl, rfl⟩, by
      show (0 : Int) < 1000 - ((0 : Nat) : Int)
      decide⟩)
  have h3 := h.2.2 envGeminiOk (by decide)
  exact ⟨h.1, h.2.1, h3.1, h3.2⟩

/-- Claim C5: within one invocation the budget is monotonically consumed
and never reset: every launched attempt's allowance equals the total
budget minus the elapsed time observed at its start (and is positive),
an attempt whose remaining budget is non-positive is never launched,
and — since elapsed time only grows — the allowances of successive
launched attempts never increase. -/
theorem budget_monotone_never_reset (env : InvokeEnv) :
    (∀ ka ∈ (invokeTrace env).launched,
      ka.2 = env.timeoutMs - (env.elapsedAt ka.1 : Int) ∧ 0 < ka.2) ∧
    (∀ k a, env.timeoutMs - (env.elapsedAt k : Int) ≤ 0 →
      (k, a) ∉ (invokeTrace env).launched) ∧
    ((∀ i j, i ≤ j → env.elapsedAt i ≤ env.elapsedAt j) →
      (invokeTrace env).launched.Pairwise (fun x y => y.2 ≤ x.2)) := by
  obtain ⟨produced, hl, hp, hpw, -⟩ :=
    attemptLoop_launched_spec env (maxAttemptsFor env.providerName) 1 none ⟨"", false⟩ []
  have htr : (invokeTrace env).launched = produced := by
    unfold invokeTrace
    rw [hl]
    simp
  refine ⟨?_, ?_, ?_⟩
  · intro ka hka
    rw [htr] at hka
    exact ⟨(hp ka hka).2.1, (hp ka hka).2.2⟩
  · intro k a hk hmem
    rw [htr] at hmem
    obtain ⟨-, h2, h3⟩ := hp (k, a) hmem
    simp only [] at h2 h3
    omega
  · intro hmono
    rw [htr]
    refine hpw.imp_of_mem ?_
    intro x y hx hy hxy
    obtain ⟨-, hx2, -⟩ := hp x hx
    obtain ⟨-, hy2, -⟩ := hp y hy
    have hm := hmono x.1 y.1 (le_of_lt hxy)
    omega

theorem budget_monotone_witness :
    ((1, (1000 : Int)) ∈ (invokeTrace envBlankClaude).launched ∧
      (1000 : Int) = envBlankClaude.timeoutMs - (envBlankClaude.elapsedAt 1 : Int) ∧
      (0 : Int) < 1000) ∧
    envZeroBudget.timeoutMs - (envZeroBudget.elapsedAt 1 : Int) ≤ 0 ∧
    (1, (5 : Int)) ∉ (invokeTrace envZeroBudget).launched ∧
    (invokeTrace envBlankClaude).launched.Pairwise (fun x y => y.2 ≤ x.2) := by
  have h1 := (budget_monotone_never_reset envBlankClaude).1 (1, (1000 : Int)) (by decide)
  exact ⟨⟨by decide, h1.1, h1.2⟩,
    by decide,
    (budget_monotone_never_reset envZeroBudget).2.1 1 5 (by decide),
    (budget_monotone_never_reset envBlankClaude).2.2 (fun i j _ => le_refl 0)⟩

/-- Claim C6 counterexample: with a 100 ms budget, the first `claude`
attempt completes cleanly with blank output after 150 ms, so the loop
exits because the remaining budget is non-positive before the retry —
yet the handler returns the empty-output error response, not the
distinct "timeout budget exhausted before retry" error the claim
requires for this case. -/
theorem timeout_exhausted_after_blank_attempt_cex :
    (invokeTrace envSlowBlank).response = none ∧
    (invokeTrace envSlowBlank).launched.length = 1 ∧
    envSlowBlank.timeoutMs - (envSlowBlank.elapsedAt 2 : Int) ≤ 0 ∧
    invokeWithRetries envSlowBlank
      = ⟨"claude returned empty output twice (exit 0); treated as failure", true⟩ ∧
    invokeWithRetries envSlowBlank ≠ ⟨timeoutMsg envSlowBlank.command, true⟩ := by
  exact ⟨rfl, by decide, by decide, by decide, by decide⟩

/-- Claim C6 (amended): when the retry loop falls through, the
"timeout budget exhausted before retry" error is returned exactly when
the budget was exhausted before the first attempt could run (no attempt
was launched); if at least one attempt had already completed — then
necessarily with blank output — the handler returns the empty-output
error instead, even when the budget ran out before a retry. -/
theorem timeout_error_only_when_no_attempt (env : InvokeEnv)
    (hresp : (invokeTrace env).response = none) :
    ((invokeTrace env).launched = [] →
      invokeWithRetries env = ⟨timeoutMsg env.command, true⟩) ∧
    ((invokeTrace env).launched ≠ [] →
      invokeWithRetries env = ⟨emptyOutputMsg env.providerName env.command, true⟩) := by
  constructor
  · intro hl
    have heq : invokeTrace env = ⟨none, none, ⟨"", false⟩, []⟩ :=
      attemptLoop_no_launch env (maxAttemptsFor env.providerName) 1 none ⟨"", false⟩ [] hl
    unfold invokeWithRetries
    rw [heq]
    rfl
  · intro hl
    obtain ⟨hsome, hblank⟩ :=
      attemptLoop_fell_blank env (maxAttemptsFor env.providerName) 1 none ⟨"", false⟩ []
        hresp hl
    unfold invokeWithRetries
    rw [hresp]
    unfold invokeTrace
    rw [hsome, hblank]
    simp

theorem timeout_error_only_when_no_attempt_witness :
    (invokeTrace envZeroBudget).response = none ∧
    (invokeTrace envZeroBudget).launched = [] ∧
    invokeWithRetries envZeroBudget = ⟨timeoutMsg envZeroBudget.command, true⟩ ∧
    (invokeTrace envSlowBlank).response = none ∧
    (invokeTrace envSlowBlank).launched ≠ [] ∧
    invokeWithRetries envSlowBlank
      = ⟨emptyOutputMsg envSlowBlank.providerName envSlowBlank.command, true⟩ := by
  exact ⟨rfl, rfl,
    (timeout_error_only_when_no_attempt envZeroBudget rfl).1 rfl,
    rfl, by decide,
    (timeout_error_only_when_no_attempt envSlowBlank rfl).2 (by decide)⟩

/-- Claim C10: for the `claude` backend, when every attempt exits cleanly
with output whose trimmed text parses to a JSON object with discriminator
`type: "result"`, whose `is_error` flag is not exactly `true`, and whose
`result` field stringifies to whitespace only (covering an absent field,
`null`, and whitespace-only strings), normalization yields blank text
with `isError = false`, so the handler treats each attempt as empty
output, retries up to the two-attempt ceiling, and returns the
empty-output error — never surfacing the raw JSON payload as success. -/
theorem claude_blank_envelope_treated_empty (env : InvokeEnv)
    (hclaude : env.providerName = "claude")
    (H : ∀ k, 1 ≤ k → k < 3 → ∃ r j,
      env.run k = .ok r ∧
      (jsTrim r.output).isEmpty = false ∧
      env.parse (jsTrim r.output) = some j ∧
      (isJsObject j && jsOptIsStr (jsGet j "type") "result") = true ∧
      jsOptIsTrue (jsGet j "is_error") = false ∧
      (jsTrim (toStringArg (jsGet j "result"))).isEmpty = true)
    (Hb : ∀ k, 1 ≤ k → k < 3 → 0 < env.timeoutMs - (env.elapsedAt k : Int)) :
    (invokeTrace env).launched.length = 2 ∧
    invokeWithRetries env
      = ⟨"claude returned empty output twice (exit 0); treated as failure", true⟩ ∧
    (invokeWithRetries env).isError = true := by
  have hblankOk : ∀ k, 1 ≤ k → k < 3 → blankOkAttempt env k := by
    intro k h1 h2
    obtain ⟨r, j, hrun, hne, hparse, henv, hie, hres⟩ := H k h1 h2
    have hnorm : normalizeToolOutput env.parse env.providerName r.output
        = ⟨toStringArg (jsGet j "result"), jsOptIsTrue (jsGet j "is_error")⟩ := by
      rw [hclaude]
      exact normalize_claude_envelope env.parse r.output j hne hparse henv
    refine ⟨r, hrun, ?_, ?_⟩
    · rw [hnorm]
      exact hie
    · rw [hnorm]
      exact hres
  have hmax : maxAttemptsFor env.providerName = 2 := by
    simp [maxAttemptsFor, hclaude, CLAUDE_EMPTY_OUTPUT_MAX_ATTEMPTS]
  have htr : invokeTrace env = attemptLoop env 1 2 none ⟨"", false⟩ [] := by
    unfold invokeTrace
    rw [hmax]
  obtain ⟨h1, h2, h3⟩ := attemptLoop_all_blank env 2 1 none ⟨"", false⟩ []
    (fun k hk1 hk2 => ⟨hblankOk k hk1 (by omega), Hb k hk1 (by omega)⟩)
  obtain ⟨hsome, hblank⟩ := h3 (by omega)
  have hresp : invokeWithRetries env
      = ⟨"claude returned empty output twice (exit 0); treated as failure", true⟩ := by
    unfold invokeWithRetries
    rw [htr, h1, hsome, hblank]
    simp [emptyOutputMsg, hclaude]
  exact ⟨by rw [htr]; simpa using h2, hresp, by rw [hresp]⟩

theorem claude_blank_envelope_witness :
    (jsTrim ("envelope" : String)).isEmpty = false ∧
    envEnvelopeBlank.parse (jsTrim "envelope") = some emptyResultEnvelope ∧
    (isJsObject emptyResultEnvelope
      && jsOptIsStr (jsGet emptyResultEnvelope "type") "result") = true ∧
    jsOptIsTrue (jsGet emptyResultEnvelope "is_error") = false ∧
    (jsTrim (toStringArg (jsGet emptyResultEnvelope "result"))).isEmpty = true ∧
    (invokeTrace envEnvelopeBlank).launched.length = 2 ∧
    invokeWithRetries envEnvelopeBlank
      = ⟨"claude returned empty output twice (exit 0); treated as failure", true⟩ ∧
    (invokeWithRetries envEnvelopeBlank).isError = true := by
  have h := claude_blank_envelope_treated_empty envEnvelopeBlank rfl
    (fun k _ _ => ⟨⟨"envelope", 8, 0, 5⟩, emptyResultEnvelope, rfl, by decide, rfl,
      by decide, by decide, by decide⟩)
    (fun k _ _ => by
      show (0 : Int) < 1000 - ((0 : Nat) : Int)
      decide)
  exact ⟨by decide, rfl, by decide, by decide, by decide, h.1, h.2.1, h.2.2⟩

theorem stepRun_stream_preserves (command : String) (s : RunState) (e : RunEvent)
    (he : isStreamEvent e = true)
    (hs : underLimits s ∨ overflowSettled command s) :
    underLimits (stepRun command s e) ∨ overflowSettled command (stepRun command s e) := by
  cases e with
  | closed code signal => simp [isStreamEvent] at he
  | spawnError m => simp [isStreamEvent] at he
  | timerFire =>
    rcases hs with ⟨h1, h2, h3, h4⟩ | ⟨h1, h2, h3⟩
    · exact Or.inl ⟨h1, h2, h3, h4⟩
    · exact Or.inr ⟨h1, rfl, h3⟩
  | stdoutData c =>
    by_cases hov : s.stdoutLen + c.length > MAX_BUFFER_BYTES
    · rcases hs with ⟨h1, h2, h3, h4⟩ | ⟨h1, h2, h3⟩
      · have hstep : stepRun command s (RunEvent.stdoutData c)
            = { s with
                stdoutLen := s.stdoutLen + c.length
                groupKilled := true
                settled := true
                result := some (.error (command ++ " stdout maxBuffer exceeded")) } := by
          simp [stepRun, hov, doneErr, h3]
        rw [hstep]
        exact Or.inr ⟨rfl, rfl, Or.inl ⟨rfl, hov⟩⟩
      · have hstep : stepRun command s (RunEvent.stdoutData c)
            = { s with
                stdoutLen := s.stdoutLen + c.length
                groupKilled := true } := by
          simp [stepRun, hov, doneErr, h1]
        rw [hstep]
        refine Or.inr ⟨h1, rfl, ?_⟩
        rcases h3 with ⟨hr, hlen⟩ | ⟨hr, hlen⟩
        · refine Or.inl ⟨hr, ?_⟩
          show s.stdoutLen + c.length > MAX_BUFFER_BYTES
          omega
        · exact Or.inr ⟨hr, hlen⟩
    · have hstep : stepRun command s (RunEvent.stdoutData c)
          = { s with
              stdoutLen := s.stdoutLen + c.length
              stdout := s.stdout ++ c } := by
        simp [stepRun, hov]
      rw [hstep]
      rcases hs with ⟨h1, h2, h3, h4⟩ | ⟨h1, h2, h3⟩
      · refine Or.inl ⟨?_, h2, h3, h4⟩
        show s.stdoutLen + c.length ≤ MAX_BUFFER_BYTES
        omega
      · refine Or.inr ⟨h1, h2, ?_⟩
        rcases h3 with ⟨hr, hlen⟩ | ⟨hr, hlen⟩
        · exact absurd (by omega) hov
        · exact Or.inr ⟨hr, hlen⟩
  | stderrData c =>
    by_cases hov : s.stderrLen + c.length > MAX_BUFFER_BYTES
    · rcases hs with ⟨h1, h2, h3, h4⟩ | ⟨h1, h2, h3⟩
      · have hstep : stepRun command s (RunEvent.stderrData c)
            = { s with
                stderrLen := s.stderrLen + c.length
                groupKilled := true
                settled := true
                result := some (.error (command ++ " stderr maxBuffer exceeded")) } := by
          simp [stepRun, hov, doneErr, h3]
        rw [hstep]
        exact Or.inr ⟨rfl, rfl, Or.inr ⟨rfl, hov⟩⟩
      · have hstep : stepRun command s (RunEvent.stderrData c)
            = { s with
                stderrLen := s.stderrLen + c.length
                groupKilled := true } := by
          simp [stepRun, hov, doneErr, h1]
        rw [hstep]
        refine Or.inr ⟨h1, rfl, ?_⟩
        rcases h3 with ⟨hr, hlen⟩ | ⟨hr, hlen⟩
        · exact Or.inl ⟨hr, hlen⟩
        · refine Or.inr ⟨hr, ?_⟩
          show s.stderrLen + c.length > MAX_BUFFER_BYTES
          omega
    · have hstep : stepRun command s (RunEvent.stderrData c)
          = { s with
              stderrLen := s.stderrLen + c.length
              stderr := s.stderr ++ c } := by
        simp [stepRun, hov]
      rw [hstep]
      rcases hs with ⟨h1, h2, h3, h4⟩ | ⟨h1, h2, h3⟩
      · refine Or.inl ⟨h1, ?_, h3, h4⟩
        show s.stderrLen + c.length ≤ MAX_BUFFER_BYTES
        omega
      · refine Or.inr ⟨h1, h2, ?_⟩
        rcases h3 with ⟨hr, hlen⟩ | ⟨hr, hlen⟩
        · exact Or.inl ⟨hr, hlen⟩
        · exact absurd (by omega) hov

theorem runPhase_stream (command : String) :
    ∀ es : List RunEvent, (∀ e ∈ es, isStreamEvent e = true) →
    ∀ s : RunState, (underLimits s ∨ overflowSettled command s) →
      underLimits (es.foldl (stepRun command) s) ∨
        overflowSettled command (es.foldl (stepRun command) s) := by
  intro es
  induction es with
  | nil =>
    intro _ s hs
    simpa using hs
  | cons e es ih =>
    intro hall s hs
    have he : isStreamEvent e = true := hall e (List.mem_cons_self _ _)
    have hall' : ∀ x ∈ es, isStreamEvent x = true :=
      fun x hx => hall x (List.mem_cons_of_mem _ hx)
    simpa using ih hall' (stepRun command s e)
      (stepRun_stream_preserves command s e he hs)

theorem stepRun_nonstream_preserves (command : String) (s : RunState) (e : RunEvent)
    (he : isStreamEvent e = false) :
    (stepRun command s e).stdoutLen = s.stdoutLen ∧
    (stepRun command s e).stderrLen = s.stderrLen ∧
    (stepRun command s e).groupKilled = s.groupKilled ∧
    (s.settled = true → stepRun command s e = s) := by
  cases e with
  | stdoutData c => simp [isStreamEvent] at he
  | stderrData c => simp [isStreamEvent] at he
  | timerFire => simp [isStreamEvent] at he
  | closed code signal =>
    by_cases hset : s.settled = true
    · cases signal with
      | some sig => simp [stepRun, doneErr, hset]
      | none =>
        by_cases hc : code = 0
        · simp [stepRun, doneOk, doneErr, hset, hc]
        · simp [stepRun, doneOk, doneErr, hset, hc]
    · have hset' : s.settled = false := by simpa using hset
      cases signal with
      | some sig => simp [stepRun, doneErr, hset']
      | none =>
        by_cases hc : code = 0
        · simp [stepRun, doneOk, doneErr, hset', hc]
        · simp [stepRun, doneOk, doneErr, hset', hc]
  | spawnError m =>
    by_cases hset : s.settled = true
    · simp [stepRun, doneErr, hset]
    · have hset' : s.settled = false := by simpa using hset
      simp [stepRun, doneErr, hset']

theorem runPhase_nonstream (command : String) :
    ∀ es : List RunEvent, (∀ e ∈ es, isStreamEvent e = false) →
    ∀ s : RunState,
      (es.foldl (stepRun command) s).stdoutLen = s.stdoutLen ∧
      (es.foldl (stepRun command) s).stderrLen = s.stderrLen ∧
      (es.foldl (stepRun command) s).groupKilled = s.groupKilled ∧
      (s.settled = true → es.foldl (stepRun command) s = s) := by
  intro es
  induction es with
  | nil =>
    intro _ s
    exact ⟨rfl, rfl, rfl, fun _ => rfl⟩
  | cons e es ih =>
    intro hall s
    have he : isStreamEvent e = false := hall e (List.mem_cons_self _ _)
    have hall' : ∀ x ∈ es, isStreamEvent x = false :=
      fun x hx => hall x (List.mem_cons_of_mem _ hx)
    obtain ⟨s1, s2, s3, s4⟩ := stepRun_nonstream_preserves command s e he
    obtain ⟨f1, f2, f3, f4⟩ := ih hall' (stepRun command s e)
    refine ⟨by simp only [List.foldl_cons]; rw [f1, s1],
      by simp only [List.foldl_cons]; rw [f2, s2],
      by simp only [List.foldl_cons]; rw [f3, s3], ?_⟩
    intro hset
    have hstep := s4 hset
    simp only [List.foldl_cons]
    rw [hstep]
    obtain ⟨-, -, -, g4⟩ := ih hall' s
    exact g4 hset

/-- Claim C7: in any run whose event sequence respects the stream
contract (no data after the close event), if a stream's accumulated
size ends up past the 10 MiB ceiling then the runner has killed the
process group and the call has failed with a buffer-exceeded rejection
that names a stream which did overflow — never the non-overflowing
one. -/
theorem buffer_ceiling_kills_and_names_stream (command : String) (events : List RunEvent)
    (hwf : wfEvents events = true)
    (hover : (runCliModel command events).stdoutLen > MAX_BUFFER_BYTES ∨
             (runCliModel command events).stderrLen > MAX_BUFFER_BYTES) :
    (runCliModel command events).groupKilled = true ∧
    (((runCliModel command events).result
        = some (.error (command ++ " stdout maxBuffer exceeded")) ∧
      (runCliModel command events).stdoutLen > MAX_BUFFER_BYTES) ∨
     ((runCliModel command events).result
        = some (.error (command ++ " stderr maxBuffer exceeded")) ∧
      (runCliModel command events).stderrLen > MAX_BUFFER_BYTES)) := by
  have hsplit : events.takeWhile isStreamEvent ++ events.dropWhile isStreamEvent = events :=
    List.takeWhile_append_dropWhile isStreamEvent events
  have hmodel : runCliModel command events
      = (events.dropWhile isStreamEvent).foldl (stepRun command)
          ((events.takeWhile isStreamEvent).foldl (stepRun command) initRunState) := by
    show events.foldl (stepRun command) initRunState = _
    conv_lhs => rw [← hsplit]
    rw [List.foldl_append]
  have hstream : ∀ e ∈ events.takeWhile isStreamEvent, isStreamEvent e = true :=
    fun e he => List.mem_takeWhile_imp he
  have hdrop : ∀ e ∈ events.dropWhile isStreamEvent, isStreamEvent e = false := by
    intro e he
    have hall : (events.dropWhile isStreamEvent).all (fun x => !isStreamEvent x) = true := hwf
    have := List.all_eq_true.mp hall e he
    simpa using this
  have hinit : underLimits initRunState ∨ overflowSettled command initRunState :=
    Or.inl ⟨Nat.zero_le _, Nat.zero_le _, rfl, rfl⟩
  have hs1 := runPhase_stream command (events.takeWhile isStreamEvent) hstream
    initRunState hinit
  obtain ⟨f1, f2, f3, f4⟩ := runPhase_nonstream command (events.dropWhile isStreamEvent) hdrop
    ((events.takeWhile isStreamEvent).foldl (stepRun command) initRunState)
  rcases hs1 with ⟨u1, u2, -, -⟩ | ⟨o1, o2, o3⟩
  · exfalso
    rw [hmodel] at hover
    rcases hover with h | h
    · rw [f1] at h
      omega
    · rw [f2] at h
      omega
  · have hfix := f4 o1
    rw [hmodel, hfix]
    exact ⟨o2, o3⟩

theorem runCli_two_event_overflow_len (command c : String)
    (h : initRunState.stdoutLen + c.length > MAX_BUFFER_BYTES) :
    (runCliModel command
        [RunEvent.stdoutData c, RunEvent.closed 0 (some "SIGKILL")]).stdoutLen
      = initRunState.stdoutLen + c.length := by
  have e1eq : stepRun command initRunState (RunEvent.stdoutData c)
      = { initRunState with
          stdoutLen := initRunState.stdoutLen + c.length
          groupKilled := true
          settled := true
          result := some (.error (command ++ " stdout maxBuffer exceeded")) } := by
    simp only [stepRun]
    rw [if_pos h]
    simp [doneErr, initRunState]
  show (stepRun command (stepRun command initRunState (RunEvent.stdoutData c))
      (RunEvent.closed 0 (some "SIGKILL"))).stdoutLen = _
  rw [e1eq]
  simp [stepRun, doneErr, initRunState]

theorem buffer_ceiling_witness :
    wfEvents overflowEvents = true ∧
    ((runCliModel "claude" overflowEvents).stdoutLen > MAX_BUFFER_BYTES ∨
     (runCliModel "claude" overflowEvents).stderrLen > MAX_BUFFER_BYTES) ∧
    (runCliModel "claude" overflowEvents).groupKilled = true ∧
    (((runCliModel "claude" overflowEvents).result
        = some (.error ("claude" ++ " stdout maxBuffer exceeded")) ∧
      (runCliModel "claude" overflowEvents).stdoutLen > MAX_BUFFER_BYTES) ∨
     ((runCliModel "claude" overflowEvents).result
        = some (.error ("claude" ++ " stderr maxBuffer exceeded")) ∧
      (runCliModel "claude" overflowEvents).stderrLen > MAX_BUFFER_BYTES)) := by
  have h0 : initRunState.stdoutLen = 0 := rfl
  have hlen : bigChunk.length = MAX_BUFFER_BYTES + 1 := by
    have h : bigChunk.length = (List.replicate (MAX_BUFFER_BYTES + 1) 'a').length := rfl
    rw [h]
    exact List.length_replicate _ _
  have hcond : initRunState.stdoutLen + bigChunk.length > MAX_BUFFER_BYTES := by
    rw [h0, hlen]
    omega
  have hevents : overflowEvents
      = [RunEvent.stdoutData bigChunk, RunEvent.closed 0 (some "SIGKILL")] := rfl
  have hover : (runCliModel "claude" overflowEvents).stdoutLen > MAX_BUFFER_BYTES ∨
      (runCliModel "claude" overflowEvents).stderrLen > MAX_BUFFER_BYTES := by
    left
    rw [hevents, runCli_two_event_overflow_len "claude" bigChunk hcond]
    exact hcond
  have hwf : wfEvents overflowEvents = true := by decide
  exact ⟨hwf, hover, buffer_ceiling_kills_and_names_stream "claude" overflowEvents hwf hover⟩
